import Mathlib

/-!
Verification development for the recipe-management backend
(`app/recipe/views.py`, `app/recipe/serializers.py` and the `core` data
model they operate on).

The relational store is embedded shallowly: a `DB` value holds the Tag,
Ingredient and Recipe rows together with the next auto-increment primary
keys.  Django ORM primitives used by the source (`get_or_create`,
`filter`, `order_by`, `distinct`, many-to-many `add` / `clear` /
cascading delete of association rows) are given their standard SQL
semantics as Lean functions.  Each function below carries a comment
naming the Python definition it embeds.
-/

/-- A Tag or Ingredient row: both `core` models have the same shape
(`id` primary key, `name`, `user` foreign key).  Users are identified by
their primary key. -/
structure AttrRow where
  id : Nat
  name : String
  user : Nat
deriving DecidableEq

/-- Table of Tag (resp. Ingredient) rows plus the next auto-increment id. -/
structure AttrStore where
  rows : List AttrRow
  nextId : Nat
deriving DecidableEq

/-- A Recipe row.  The many-to-many associations to tags and ingredients
are kept as the list of associated primary keys (the association table
rows for this recipe, in insertion order).  `price` is the decimal price
in cents; the image field plays no role in the claims and is omitted. -/
structure Recipe where
  id : Nat
  title : String
  time_minutes : Nat
  price : Int
  link : String
  description : String
  user : Nat
  tags : List Nat
  ingredients : List Nat
deriving DecidableEq

/-- The relational store. -/
structure DB where
  tags : AttrStore
  ingredients : AttrStore
  recipes : List Recipe
  nextRecipeId : Nat
deriving DecidableEq

/-- A validated tag/ingredient descriptor as produced by
`TagSerializer` / `IngredientSerializer` inside `RecipeSerializer`
(`fields = [id, name]` with `id` read-only, so validated data holds
only `name`). -/
structure AttrDescr where
  name : String
deriving DecidableEq

/-- Django `Tag.objects.get_or_create(user=auth_user, name=...)` (and the
identical call on `Ingredient.objects`): return the first row matching
`(user, name)`, or insert a fresh row with the next primary key. -/
def get_or_create (s : AttrStore) (user : Nat) (name : String) : AttrStore × AttrRow :=
  match s.rows.find? (fun t => t.user == user && t.name == name) with
  | some t => (s, t)
  | none =>
      let t : AttrRow := ⟨s.nextId, name, user⟩
      (⟨s.rows ++ [t], s.nextId + 1⟩, t)

/-- Django many-to-many `add`: a no-op when the association already
exists, otherwise append an association row. -/
def m2m_add (assoc : List Nat) (tid : Nat) : List Nat :=
  if assoc.contains tid then assoc else assoc ++ [tid]

/-- `RecipeSerializer._get_or_create_tags` and
`RecipeSerializer._get_or_create_ingredients` (identical code on the two
stores): for each descriptor, `get_or_create` the row for
`(auth_user, name)` and `add` it to the recipe's association list.
Returns the updated table and the recipe's updated association list. -/
def get_or_create_attrs (s : AttrStore) (auth_user : Nat) (descs : List AttrDescr)
    (assoc : List Nat) : AttrStore × List Nat :=
  descs.foldl
    (fun acc d =>
      let p := get_or_create acc.1 auth_user d.name
      (p.1, m2m_add acc.2 p.2.id))
    (s, assoc)

/-- Validated data for `RecipeDetailSerializer` on create (the default
serializer class).  Scalar fields are the writable `Meta.fields`
(`title`, `time_minutes`, `price`, `link`) plus `description`;
`tags` and `ingredients` are declared `required=False`, so they may be
absent (`none`) from the validated data. -/
structure CreateData where
  title : String
  time_minutes : Nat
  price : Int
  link : String
  description : String
  tags : Option (List AttrDescr)
  ingredients : Option (List AttrDescr)
deriving DecidableEq

/-- `RecipeSerializer.create` with `perform_create` supplying
`user=request.user`: pop `tags` / `ingredients` with default `[]`,
`Recipe.objects.create(**validated_data)`, then reconcile and associate
both descriptor lists. -/
def serializer_create (db : DB) (auth_user : Nat) (v : CreateData) : DB × Nat :=
  let tags := v.tags.getD []
  let ingredients := v.ingredients.getD []
  let rid := db.nextRecipeId
  let tp := get_or_create_attrs db.tags auth_user tags []
  let ip := get_or_create_attrs db.ingredients auth_user ingredients []
  let recipe : Recipe :=
    ⟨rid, v.title, v.time_minutes, v.price, v.link, v.description, auth_user, tp.2, ip.2⟩
  (⟨tp.1, ip.1, db.recipes ++ [recipe], rid + 1⟩, rid)

/-- Validated data for `RecipeDetailSerializer` on (partial) update:
every field may be absent. -/
structure UpdateData where
  title : Option String
  time_minutes : Option Nat
  price : Option Int
  link : Option String
  description : Option String
  tags : Option (List AttrDescr)
  ingredients : Option (List AttrDescr)
deriving DecidableEq

/-- A raw update payload as submitted by the client: the validated
fields plus a possible `user` key (an attempt to reassign the owner). -/
structure RawUpdatePayload where
  title : Option String
  time_minutes : Option Nat
  price : Option Int
  link : Option String
  description : Option String
  tags : Option (List AttrDescr)
  ingredients : Option (List AttrDescr)
  user : Option Nat
deriving DecidableEq

/-- DRF deserialization for `RecipeDetailSerializer`: `to_internal_value`
reads only the declared writable fields of `Meta.fields`
(`title`, `time_minutes`, `price`, `link`, `tags`, `ingredients`,
`description`; `id` is read-only).  `user` is not a declared field, so a
submitted `user` key is dropped before `update` ever sees it. -/
def to_internal_value (p : RawUpdatePayload) : UpdateData :=
  ⟨p.title, p.time_minutes, p.price, p.link, p.description, p.tags, p.ingredients⟩

/-- `RecipeSerializer.update`: pop `tags` and `ingredients` with default
`None`; for each key that is present (even as `[]`) clear the inst's
association set and reconcile the descriptors into it; then `setattr`
each remaining validated scalar and save the inst (write the row
back by primary key). -/
def serializer_update (db : DB) (auth_user : Nat) (inst : Recipe) (v : UpdateData) : DB :=
  let tp :=
    match v.tags with
    | some ts => get_or_create_attrs db.tags auth_user ts []
    | none => (db.tags, inst.tags)
  let ip :=
    match v.ingredients with
    | some igs => get_or_create_attrs db.ingredients auth_user igs []
    | none => (db.ingredients, inst.ingredients)
  let instance2 : Recipe :=
    { inst with
      title := v.title.getD inst.title
      time_minutes := v.time_minutes.getD inst.time_minutes
      price := v.price.getD inst.price
      link := v.link.getD inst.link
      description := v.description.getD inst.description
      tags := tp.2
      ingredients := ip.2 }
  ⟨tp.1, ip.1, db.recipes.map (fun r => if r.id == inst.id then instance2 else r),
    db.nextRecipeId⟩

/-- Python `str.split(",")`: cut the character list at every comma
(adjacent commas and a leading/trailing comma yield empty tokens). -/
def splitCommaAux : List Char → List Char → List (List Char)
  | [], acc => [acc.reverse]
  | c :: cs, acc =>
      if c = ',' then acc.reverse :: splitCommaAux cs []
      else splitCommaAux cs (c :: acc)

/-- Python `str.split(",")` on a string value. -/
def splitComma (s : String) : List (List Char) :=
  splitCommaAux s.toList []

/-- Read a non-empty all-digit token as a number; anything else is a
`ValueError` (`none`). -/
def digitsToNat : List Char → Option Nat
  | [] => none
  | cs =>
      if cs.all Char.isDigit then
        some (cs.foldl (fun n c => n * 10 + (c.toNat - 48)) 0)
      else none

/-- Python `int(token)` on a string: optional surrounding whitespace, an
optional sign, then a non-empty digit string; anything else raises
`ValueError`, embedded as `none`.  (Underscore digit grouping is not
modelled.) -/
def pyInt (cs : List Char) : Option Int :=
  let t := (((cs.dropWhile Char.isWhitespace).reverse).dropWhile Char.isWhitespace).reverse
  match t with
  | '-' :: rest => (digitsToNat rest).map (fun n => -(n : Int))
  | '+' :: rest => (digitsToNat rest).map (fun n => (n : Int))
  | _ => (digitsToNat t).map (fun n => (n : Int))

/-- `RecipeViewSet._params_to_ints`: split on commas and convert each
token with `int`; a non-integer token raises `ValueError` (`none`). -/
def params_to_ints (query_params : String) : Option (List Int) :=
  (splitComma query_params).mapM pyInt

/-- SQL join semantics of `queryset.filter(tags__id__in=tag_ids)`: each
recipe contributes one result row per associated tag whose id is listed,
so a recipe matching several listed tags is duplicated. -/
def qsFilterTagsIdIn (qs : List Recipe) (ids : List Int) : List Recipe :=
  qs.flatMap (fun r => (r.tags.filter (fun tid => ids.contains (Int.ofNat tid))).map (fun _ => r))

/-- Likewise for `queryset.filter(ingredients__id__in=ingredient_ids)`. -/
def qsFilterIngredientsIdIn (qs : List Recipe) (ids : List Int) : List Recipe :=
  qs.flatMap (fun r =>
    (r.ingredients.filter (fun iid => ids.contains (Int.ofNat iid))).map (fun _ => r))

/-- Stable insertion for `order_by("-id")` (descending primary key). -/
def insertDescById (r : Recipe) : List Recipe → List Recipe
  | [] => [r]
  | x :: xs => if r.id ≤ x.id then x :: insertDescById r xs else r :: x :: xs

/-- `order_by("-id")`. -/
def sortDescById (l : List Recipe) : List Recipe :=
  l.foldr insertDescById []

/-- Lexicographic comparison of character lists by code point, the SQL
collation assumed for `order_by("-name")` (case-sensitive, as stored). -/
def lexLe : List Char → List Char → Bool
  | [], _ => true
  | _ :: _, [] => false
  | a :: as, b :: bs =>
      if a = b then lexLe as bs else decide (a.toNat < b.toNat)

/-- Lexicographic comparison of strings. -/
def strLe (a b : String) : Bool :=
  lexLe a.toList b.toList

/-- Stable insertion for `order_by("-name")` (descending name). -/
def insertDescByName (t : AttrRow) : List AttrRow → List AttrRow
  | [] => [t]
  | x :: xs => if strLe t.name x.name then x :: insertDescByName t xs else t :: x :: xs

/-- `order_by("-name")`. -/
def sortDescByName (l : List AttrRow) : List AttrRow :=
  l.foldr insertDescByName []

/-- `RecipeViewSet.get_queryset`: read the `tags` and `ingredients`
query parameters (absent or the raw string); when a parameter is truthy
(present and non-empty) parse it and narrow by the join filter; finally
scope to the requesting user, order by descending id and deduplicate.
A `ValueError` from `int` propagates (`none`). -/
def recipe_get_queryset (db : DB) (user : Nat) (tags ingredients : Option String) :
    Option (List Recipe) := do
  let queryset := db.recipes
  let queryset ←
    match tags with
    | some s =>
        if s = "" then pure queryset
        else do
          let tag_ids ← params_to_ints s
          pure (qsFilterTagsIdIn queryset tag_ids)
    | none => pure queryset
  let queryset ←
    match ingredients with
    | some s =>
        if s = "" then pure queryset
        else do
          let ingredient_ids ← params_to_ints s
          pure (qsFilterIngredientsIdIn queryset ingredient_ids)
    | none => pure queryset
  pure (List.dedup (sortDescById (queryset.filter (fun r => r.user == user))))

/-- `BaseRecipeAttrViewSet.get_queryset` (shared by `TagViewSet` and
`IngredientViewSet`): scope to the requesting user and order by
descending name.  No query parameter is read. -/
def attr_get_queryset (s : AttrStore) (user : Nat) : List AttrRow :=
  sortDescByName (s.rows.filter (fun t => t.user == user))

/-- The outcome of an HTTP request: success, a 4xx validation rejection,
a 404, or an unhandled exception surfaced by the framework as a 5xx. -/
inductive ApiResponse (α : Type) where
  | ok : α → ApiResponse α
  | clientError : ApiResponse α
  | notFound : ApiResponse α
  | serverError : ApiResponse α
deriving DecidableEq

/-- The recipe `list` action: serialize `get_queryset`; an uncaught
`ValueError` becomes a server error. -/
def recipe_list (db : DB) (user : Nat) (tags ingredients : Option String) :
    ApiResponse (List Recipe) :=
  match recipe_get_queryset db user tags ingredients with
  | some qs => ApiResponse.ok qs
  | none => ApiResponse.serverError

/-- The tag `list` action.  `query_params` carries whatever the client
sent (for inst `assigned_only=1`); `TagViewSet` reads none of it. -/
def tag_list (db : DB) (user : Nat) (_query_params : List (String × String)) : List AttrRow :=
  attr_get_queryset db.tags user

/-- The ingredient `list` action; `IngredientViewSet` likewise reads no
query parameter. -/
def ingredient_list (db : DB) (user : Nat) (_query_params : List (String × String)) :
    List AttrRow :=
  attr_get_queryset db.ingredients user

/-- DRF `get_object` for recipe detail actions: `get_object_or_404` over
`get_queryset()` (no filter parameters on a detail request). -/
def recipe_get_object (db : DB) (user : Nat) (pk : Nat) : Option Recipe :=
  match recipe_get_queryset db user none none with
  | some qs => qs.find? (fun r => r.id == pk)
  | none => none

/-- DRF `get_object` for tag/ingredient detail actions. -/
def attr_get_object (s : AttrStore) (user : Nat) (pk : Nat) : Option AttrRow :=
  (attr_get_queryset s user).find? (fun t => t.id == pk)

/-- Row lookup by primary key. -/
def getRecipe (db : DB) (pk : Nat) : Option Recipe :=
  db.recipes.find? (fun r => r.id == pk)

/-- The recipe `retrieve` action. -/
def recipe_retrieve (db : DB) (user : Nat) (pk : Nat) : ApiResponse Recipe :=
  match recipe_get_object db user pk with
  | some r => ApiResponse.ok r
  | none => ApiResponse.notFound

/-- The recipe `create` action (`perform_create` passes
`user=request.user`). -/
def recipe_create (db : DB) (user : Nat) (v : CreateData) : ApiResponse Nat × DB :=
  let p := serializer_create db user v
  (ApiResponse.ok p.2, p.1)

/-- The recipe update action (PATCH): `get_object` (404 outside the
owner-scoped queryset), deserialize through the declared field set, then
`RecipeSerializer.update`. -/
def recipe_patch (db : DB) (user : Nat) (pk : Nat) (raw : RawUpdatePayload) :
    ApiResponse Unit × DB :=
  match recipe_get_object db user pk with
  | none => (ApiResponse.notFound, db)
  | some inst =>
      (ApiResponse.ok (), serializer_update db user inst (to_internal_value raw))

/-- The recipe `destroy` action: delete the row; its association rows go
with it, the Tag/Ingredient rows themselves stay. -/
def recipe_destroy (db : DB) (user : Nat) (pk : Nat) : ApiResponse Unit × DB :=
  match recipe_get_object db user pk with
  | none => (ApiResponse.notFound, db)
  | some _ =>
      (ApiResponse.ok (),
        ⟨db.tags, db.ingredients, db.recipes.filter (fun r => ¬ r.id == pk), db.nextRecipeId⟩)

/-- The tag update action (`TagSerializer`: writable field `name`). -/
def tag_update (db : DB) (user : Nat) (pk : Nat) (name : String) : ApiResponse Unit × DB :=
  match attr_get_object db.tags user pk with
  | none => (ApiResponse.notFound, db)
  | some t =>
      (ApiResponse.ok (),
        ⟨⟨db.tags.rows.map (fun x => if x.id == pk then { t with name := name } else x),
            db.tags.nextId⟩,
          db.ingredients, db.recipes, db.nextRecipeId⟩)

/-- The tag `destroy` action: delete the row; the many-to-many
association rows referencing it are cascade-deleted. -/
def tag_destroy (db : DB) (user : Nat) (pk : Nat) : ApiResponse Unit × DB :=
  match attr_get_object db.tags user pk with
  | none => (ApiResponse.notFound, db)
  | some _ =>
      (ApiResponse.ok (),
        ⟨⟨db.tags.rows.filter (fun x => ¬ x.id == pk), db.tags.nextId⟩, db.ingredients,
          db.recipes.map (fun r => { r with tags := r.tags.filter (fun i => ¬ i == pk) }),
          db.nextRecipeId⟩)

/-- The ingredient update action (`IngredientSerializer`: writable field
`name`). -/
def ingredient_update (db : DB) (user : Nat) (pk : Nat) (name : String) :
    ApiResponse Unit × DB :=
  match attr_get_object db.ingredients user pk with
  | none => (ApiResponse.notFound, db)
  | some t =>
      (ApiResponse.ok (),
        ⟨db.tags,
          ⟨db.ingredients.rows.map (fun x => if x.id == pk then { t with name := name } else x),
            db.ingredients.nextId⟩,
          db.recipes, db.nextRecipeId⟩)

/-- The ingredient `destroy` action. -/
def ingredient_destroy (db : DB) (user : Nat) (pk : Nat) : ApiResponse Unit × DB :=
  match attr_get_object db.ingredients user pk with
  | none => (ApiResponse.notFound, db)
  | some _ =>
      (ApiResponse.ok (),
        ⟨db.tags, ⟨db.ingredients.rows.filter (fun x => ¬ x.id == pk), db.ingredients.nextId⟩,
          db.recipes.map
            (fun r => { r with ingredients := r.ingredients.filter (fun i => ¬ i == pk) }),
          db.nextRecipeId⟩)

/-- The empty store. -/
def db0 : DB := ⟨⟨[], 0⟩, ⟨[], 0⟩, [], 0⟩

/-! ### Basic lemmas about the embedded ORM primitives -/

theorem mem_insertDescById (r a : Recipe) (l : List Recipe) :
    a ∈ insertDescById r l ↔ a = r ∨ a ∈ l := by
  induction l with
  | nil => simp [insertDescById]
  | cons x xs ih =>
      simp only [insertDescById]
      by_cases h : r.id ≤ x.id <;> simp [h, ih] <;> tauto

theorem mem_sortDescById (a : Recipe) (l : List Recipe) :
    a ∈ sortDescById l ↔ a ∈ l := by
  induction l with
  | nil => simp [sortDescById]
  | cons x xs ih =>
      simp only [sortDescById, List.foldr] at ih ⊢
      rw [mem_insertDescById]
      simp [ih]

theorem mem_insertDescByName (r a : AttrRow) (l : List AttrRow) :
    a ∈ insertDescByName r l ↔ a = r ∨ a ∈ l := by
  induction l with
  | nil => simp [insertDescByName]
  | cons x xs ih =>
      simp only [insertDescByName]
      by_cases h : strLe r.name x.name <;> simp [h, ih] <;> tauto

theorem mem_sortDescByName (a : AttrRow) (l : List AttrRow) :
    a ∈ sortDescByName l ↔ a ∈ l := by
  induction l with
  | nil => simp [sortDescByName]
  | cons x xs ih =>
      simp only [sortDescByName, List.foldr] at ih ⊢
      rw [mem_insertDescByName]
      simp [ih]

theorem mem_qsFilterTagsIdIn (qs : List Recipe) (ids : List Int) (r : Recipe) :
    r ∈ qsFilterTagsIdIn qs ids ↔ r ∈ qs ∧ ∃ t ∈ r.tags, Int.ofNat t ∈ ids := by
  simp only [qsFilterTagsIdIn, List.mem_flatMap, List.mem_map, List.mem_filter]
  constructor
  · rintro ⟨x, hx, y, ⟨hy, hc⟩, rfl⟩
    exact ⟨hx, y, hy, by simpa using hc⟩
  · rintro ⟨hx, y, hy, hc⟩
    exact ⟨r, hx, y, ⟨hy, by simpa using hc⟩, rfl⟩

theorem mem_qsFilterIngredientsIdIn (qs : List Recipe) (ids : List Int) (r : Recipe) :
    r ∈ qsFilterIngredientsIdIn qs ids ↔ r ∈ qs ∧ ∃ i ∈ r.ingredients, Int.ofNat i ∈ ids := by
  simp only [qsFilterIngredientsIdIn, List.mem_flatMap, List.mem_map, List.mem_filter]
  constructor
  · rintro ⟨x, hx, y, ⟨hy, hc⟩, rfl⟩
    exact ⟨hx, y, hy, by simpa using hc⟩
  · rintro ⟨hx, y, hy, hc⟩
    exact ⟨r, hx, y, ⟨hy, by simpa using hc⟩, rfl⟩

/-- The unfiltered recipe queryset: scope to the user, order, deduplicate. -/
theorem recipe_get_queryset_none_none (db : DB) (u : Nat) :
    recipe_get_queryset db u none none
      = some (List.dedup (sortDescById (db.recipes.filter (fun r => r.user == u)))) := rfl

theorem mem_owned_list (l : List Recipe) (u : Nat) (r : Recipe) :
    r ∈ List.dedup (sortDescById (l.filter (fun x => x.user == u))) ↔ r ∈ l ∧ r.user = u := by
  rw [List.mem_dedup, mem_sortDescById, List.mem_filter]
  simp

theorem recipe_get_object_spec (db : DB) (u pk : Nat) (r : Recipe)
    (h : recipe_get_object db u pk = some r) :
    r ∈ db.recipes ∧ r.user = u ∧ r.id = pk := by
  unfold recipe_get_object at h
  rw [recipe_get_queryset_none_none] at h
  have hmem := List.mem_of_find?_eq_some h
  have hpk := List.find?_some h
  rw [mem_owned_list] at hmem
  exact ⟨hmem.1, hmem.2, by simpa using hpk⟩

theorem attr_get_object_spec (s : AttrStore) (u pk : Nat) (t : AttrRow)
    (h : attr_get_object s u pk = some t) :
    t ∈ s.rows ∧ t.user = u ∧ t.id = pk := by
  unfold attr_get_object attr_get_queryset at h
  have hmem := List.mem_of_find?_eq_some h
  have hpk := List.find?_some h
  rw [mem_sortDescByName, List.mem_filter] at hmem
  refine ⟨hmem.1, by simpa using hmem.2, by simpa using hpk⟩

/-- With distinct primary keys, a row of another owner is invisible to
`get_object`: the owner-scoped queryset has no row with its key. -/
theorem recipe_get_object_other_owner (db : DB) (u : Nat) (r : Recipe)
    (hnodup : (db.recipes.map Recipe.id).Nodup) (hmem : r ∈ db.recipes) (hown : r.user ≠ u) :
    recipe_get_object db u r.id = none := by
  unfold recipe_get_object
  rw [recipe_get_queryset_none_none]
  rw [List.find?_eq_none]
  intro x hx
  rw [mem_owned_list] at hx
  intro hid
  apply hown
  have hxr : x = r :=
    List.inj_on_of_nodup_map hnodup hx.1 hmem (by simpa using hid)
  rw [← hxr]
  exact hx.2

theorem attr_get_object_other_owner (s : AttrStore) (u : Nat) (t : AttrRow)
    (hnodup : (s.rows.map AttrRow.id).Nodup) (hmem : t ∈ s.rows) (hown : t.user ≠ u) :
    attr_get_object s u t.id = none := by
  unfold attr_get_object attr_get_queryset
  rw [List.find?_eq_none]
  intro x hx
  rw [mem_sortDescByName, List.mem_filter] at hx
  intro hid
  apply hown
  have hxr : x = t :=
    List.inj_on_of_nodup_map hnodup hx.1 hmem (by simpa using hid)
  rw [← hxr]
  simpa using hx.2

/-! ### Structure of `get_or_create` and reconciliation -/

/-- One `get_or_create` call either finds an existing row or appends a
single fresh row owned by the calling user. -/
theorem get_or_create_rows (s : AttrStore) (u : Nat) (n : String) :
    (get_or_create s u n).1.rows = s.rows ∨
      (get_or_create s u n).1.rows = s.rows ++ [⟨s.nextId, n, u⟩] := by
  unfold get_or_create
  cases h : s.rows.find? (fun t => t.user == u && t.name == n) <;> simp [h]

/-- Reconciliation only appends rows, and every appended row is owned by
the requesting user. -/
theorem get_or_create_attrs_rows (u : Nat) (descs : List AttrDescr) :
    ∀ (s : AttrStore) (assoc : List Nat),
      ∃ ext, (get_or_create_attrs s u descs assoc).1.rows = s.rows ++ ext ∧
        ∀ t ∈ ext, t.user = u := by
  induction descs with
  | nil => intro s assoc; exact ⟨[], by simp [get_or_create_attrs], by simp⟩
  | cons d ds ih =>
      intro s assoc
      have hstep : get_or_create_attrs s u (d :: ds) assoc
          = get_or_create_attrs (get_or_create s u d.name).1 u ds
              (m2m_add assoc (get_or_create s u d.name).2.id) := by
        simp [get_or_create_attrs]
      rw [hstep]
      obtain ⟨ext, hext, hu⟩ :=
        ih (get_or_create s u d.name).1 (m2m_add assoc (get_or_create s u d.name).2.id)
      rcases get_or_create_rows s u d.name with h1 | h1
      · exact ⟨ext, by rw [hext, h1], hu⟩
      · refine ⟨⟨s.nextId, d.name, u⟩ :: ext, ?_, ?_⟩
        · rw [hext, h1]; simp
        · intro t ht
          rcases List.mem_cons.mp ht with rfl | ht
          · rfl
          · exact hu t ht

/-! ### Claim C1 -/

/-- A store for exercising the `assigned_only` parameter: user 1 owns
tag 1 "Breakfast" and ingredient 1 "Pepper", both associated with the
one recipe, and tag 2 "Lunch" and ingredient 2 "Salt" with zero recipe
associations. -/
def dbC1 : DB :=
  ⟨⟨[⟨1, "Breakfast", 1⟩, ⟨2, "Lunch", 1⟩], 3⟩,
    ⟨[⟨1, "Pepper", 1⟩, ⟨2, "Salt", 1⟩], 3⟩,
    [⟨1, "Green Eggs on toast", 10, 250, "", "", 1, [1], [1]⟩], 2⟩

/-- C1: listing tags or ingredients with `assigned_only=1` is claimed to
exclude every tag/ingredient with zero recipe associations.  The code
(`BaseRecipeAttrViewSet.get_queryset`) reads no query parameter at all:
tag 2 "Lunch" and ingredient 2 "Salt" have zero recipe associations in
`dbC1`, yet both appear in the listing requested with `assigned_only=1`.
This contradicts the repository's own tests
(`test_filter_tags_assigned_to_recipes`,
`test_filter_ingredients_assigned_to_recipes`). -/
theorem C1_assigned_only_ignored :
    (⟨2, "Lunch", 1⟩ : AttrRow) ∈ tag_list dbC1 1 [("assigned_only", "1")] ∧
    dbC1.recipes.all (fun r => !(r.tags.contains 2)) = true ∧
    (⟨2, "Salt", 1⟩ : AttrRow) ∈ ingredient_list dbC1 1 [("assigned_only", "1")] ∧
    dbC1.recipes.all (fun r => !(r.ingredients.contains 2)) = true := by
  decide

/-! ### Claim C2 -/

/-- C2 (counterexample): a recipe-list request with the non-integer
filter token `tags=abc` is answered with a server error (the
`ValueError` raised by `int` is uncaught), not with the client-error
response the claim requires. -/
theorem C2_counterexample :
    recipe_list db0 1 (some "abc") none = ApiResponse.serverError := by decide

/-- C2 (amended): a recipe-list request whose `tags` or `ingredients`
filter parameter is non-empty and contains a non-integer token fails
with a server error (uncaught `ValueError` from `int`), not with a
client-error response. -/
theorem C2_nonint_filter_server_error (db : DB) (u : Nat) (s : String)
    (hs : ¬ s = "") (hp : params_to_ints s = none) :
    recipe_list db u (some s) none = ApiResponse.serverError ∧
    recipe_list db u none (some s) = ApiResponse.serverError := by
  unfold recipe_list recipe_get_queryset
  simp [hs, hp]

/-- C2 witness: the amended theorem applied at `tags=abc` and
`ingredients=abc` on the empty store. -/
theorem C2_nonint_filter_server_error_witness :
    recipe_list db0 1 (some "abc") none = ApiResponse.serverError ∧
    recipe_list db0 1 none (some "abc") = ApiResponse.serverError :=
  C2_nonint_filter_server_error db0 1 "abc" (by decide) (by decide)

/-! ### Claim C9 -/

/-- C9: a `tags` or `ingredients` filter parameter that is present but
equal to the empty string is treated exactly like an absent parameter
(the Python truthiness test `if tags:` rejects the empty string), and
with both parameters empty the request succeeds with the unfiltered
owner-scoped recipe list. -/
theorem C9_empty_filter_param_ignored (db : DB) (u : Nat) (tp ip : Option String) :
    recipe_list db u (some "") ip = recipe_list db u none ip ∧
    recipe_list db u tp (some "") = recipe_list db u tp none ∧
    recipe_list db u (some "") (some "")
      = ApiResponse.ok
          (List.dedup (sortDescById (db.recipes.filter (fun r => r.user == u)))) := by
  refine ⟨rfl, ?_, rfl⟩
  unfold recipe_list recipe_get_queryset
  match tp with
  | none => rfl
  | some s =>
      by_cases hs : s = ""
      · simp [hs]
      · simp only [hs, if_neg, ite_false]
        cases params_to_ints s <;> rfl

/-! ### Claim C7 -/

theorem recipe_get_queryset_tags_some (db : DB) (u : Nat) (s : String) (tl : List Int)
    (hs : ¬ s = "") (hp : params_to_ints s = some tl) :
    recipe_get_queryset db u (some s) none
      = some (List.dedup (sortDescById
          ((qsFilterTagsIdIn db.recipes tl).filter (fun r => r.user == u)))) := by
  unfold recipe_get_queryset
  simp [hs, hp]

theorem recipe_get_queryset_both_some (db : DB) (u : Nat) (s1 s2 : String) (tl il : List Int)
    (hs1 : ¬ s1 = "") (hp1 : params_to_ints s1 = some tl)
    (hs2 : ¬ s2 = "") (hp2 : params_to_ints s2 = some il) :
    recipe_get_queryset db u (some s1) (some s2)
      = some (List.dedup (sortDescById
          ((qsFilterIngredientsIdIn (qsFilterTagsIdIn db.recipes tl) il).filter
            (fun r => r.user == u)))) := by
  unfold recipe_get_queryset
  simp [hs1, hp1, hs2, hp2]

theorem nodup_perm_helper (l2 base : List Recipe) (p : Recipe → Bool)
    (h2 : l2.Nodup)
    (hm : ∀ r : Recipe, r ∈ l2 ↔ r ∈ base ∧ p r = true) :
    l2.Perm (List.dedup (base.filter p)) := by
  rw [List.perm_ext_iff_of_nodup h2 (List.nodup_dedup _)]
  intro a
  rw [hm, List.mem_dedup, List.mem_filter]

/-- C7: with filter `tags=T1,T2`, the list result is exactly the set of
the requesting user's recipes associated with T1 or T2, without
duplicates even when a recipe carries both tags (the queryset join can
duplicate a row, `.distinct()` removes the copies); adding an
`ingredients` filter intersects (logical AND) the two criteria, still
deduplicated. -/
theorem C7_filter_or_and_dedup (db : DB) (u : Nat) (s1 s2 : String) (t1 t2 : Int)
    (il : List Int) (qs1 qs2 : List Recipe)
    (hs1 : ¬ s1 = "") (hp1 : params_to_ints s1 = some [t1, t2])
    (hs2 : ¬ s2 = "") (hp2 : params_to_ints s2 = some il)
    (hqs1 : recipe_list db u (some s1) none = ApiResponse.ok qs1)
    (hqs2 : recipe_list db u (some s1) (some s2) = ApiResponse.ok qs2) :
    qs1.Nodup ∧
    qs1.Perm (List.dedup (db.recipes.filter (fun r =>
      r.user == u && r.tags.any (fun t => Int.ofNat t == t1 || Int.ofNat t == t2)))) ∧
    qs2.Nodup ∧
    qs2.Perm (List.dedup (db.recipes.filter (fun r =>
      r.user == u && r.tags.any (fun t => Int.ofNat t == t1 || Int.ofNat t == t2)
        && r.ingredients.any (fun i => il.contains (Int.ofNat i))))) := by
  unfold recipe_list at hqs1 hqs2
  rw [recipe_get_queryset_tags_some db u s1 [t1, t2] hs1 hp1] at hqs1
  rw [recipe_get_queryset_both_some db u s1 s2 [t1, t2] il hs1 hp1 hs2 hp2] at hqs2
  have hq1 : qs1 = List.dedup (sortDescById
      ((qsFilterTagsIdIn db.recipes [t1, t2]).filter (fun r => r.user == u))) := by
    cases hqs1; rfl
  have hq2 : qs2 = List.dedup (sortDescById
      ((qsFilterIngredientsIdIn (qsFilterTagsIdIn db.recipes [t1, t2]) il).filter
        (fun r => r.user == u))) := by
    cases hqs2; rfl
  subst hq1; subst hq2
  refine ⟨List.nodup_dedup _, ?_, List.nodup_dedup _, ?_⟩
  · apply nodup_perm_helper _ _ _ (List.nodup_dedup _)
    intro r
    rw [List.mem_dedup, mem_sortDescById, List.mem_filter, mem_qsFilterTagsIdIn]
    simp only [List.any_eq_true, Bool.and_eq_true, beq_iff_eq, Bool.or_eq_true]
    constructor
    · rintro ⟨⟨hr, t, ht, hc⟩, hu⟩
      refine ⟨hr, hu, t, ht, ?_⟩
      simpa using hc
    · rintro ⟨hr, hu, t, ht, hc⟩
      exact ⟨⟨hr, t, ht, by simpa using hc⟩, hu⟩
  · apply nodup_perm_helper _ _ _ (List.nodup_dedup _)
    intro r
    rw [List.mem_dedup, mem_sortDescById, List.mem_filter, mem_qsFilterIngredientsIdIn,
      mem_qsFilterTagsIdIn]
    simp only [List.any_eq_true, Bool.and_eq_true, beq_iff_eq, Bool.or_eq_true]
    constructor
    · rintro ⟨⟨⟨hr, t, ht, hct⟩, i, hi, hci⟩, hu⟩
      exact ⟨hr, ⟨hu, t, ht, by simpa using hct⟩, i, hi, by simpa using hci⟩
    · rintro ⟨hr, ⟨hu, t, ht, hct⟩, i, hi, hci⟩
      exact ⟨⟨⟨hr, t, ht, by simpa using hct⟩, i, hi, by simpa using hci⟩, hu⟩

/-- A store exercising the recipe filters: user 1 owns recipes 1 (tags
1 and 2, ingredient 1), 2 (tag 2 only) and 3 (tag 3, ingredient 1);
recipe 4 belongs to user 2. -/
def dbC7 : DB :=
  ⟨⟨[⟨1, "A", 1⟩, ⟨2, "B", 1⟩, ⟨3, "C", 1⟩], 4⟩,
    ⟨[⟨1, "Salt", 1⟩], 2⟩,
    [⟨1, "Curry", 10, 100, "", "", 1, [1, 2], [1]⟩,
     ⟨2, "Tahini", 20, 200, "", "", 1, [2], []⟩,
     ⟨3, "Dahl", 30, 300, "", "", 1, [3], [1]⟩,
     ⟨4, "Foreign", 5, 50, "", "", 2, [1], [1]⟩], 5⟩

/-- C7 witness: the filter theorem applied to `dbC7` with `tags=1,2`
and `ingredients=1`; recipe 1 matches both listed tags yet appears only
once. -/
theorem C7_filter_or_and_dedup_witness :
    ([⟨2, "Tahini", 20, 200, "", "", 1, [2], []⟩,
      ⟨1, "Curry", 10, 100, "", "", 1, [1, 2], [1]⟩] : List Recipe).Nodup ∧
    ([⟨2, "Tahini", 20, 200, "", "", 1, [2], []⟩,
      ⟨1, "Curry", 10, 100, "", "", 1, [1, 2], [1]⟩] : List Recipe).Perm
      (List.dedup (dbC7.recipes.filter (fun r =>
        r.user == 1 && r.tags.any (fun t => Int.ofNat t == 1 || Int.ofNat t == 2)))) ∧
    ([⟨1, "Curry", 10, 100, "", "", 1, [1, 2], [1]⟩] : List Recipe).Nodup ∧
    ([⟨1, "Curry", 10, 100, "", "", 1, [1, 2], [1]⟩] : List Recipe).Perm
      (List.dedup (dbC7.recipes.filter (fun r =>
        r.user == 1 && r.tags.any (fun t => Int.ofNat t == 1 || Int.ofNat t == 2)
          && r.ingredients.any (fun i => [(1 : Int)].contains (Int.ofNat i))))) :=
  C7_filter_or_and_dedup dbC7 1 "1,2" "1" 1 2 [1]
    [⟨2, "Tahini", 20, 200, "", "", 1, [2], []⟩,
      ⟨1, "Curry", 10, 100, "", "", 1, [1, 2], [1]⟩]
    [⟨1, "Curry", 10, 100, "", "", 1, [1, 2], [1]⟩]
    (by decide) (by decide) (by decide) (by decide) (by decide) (by decide)

/-! ### Claim C8 -/

/-- C8: every detail operation on a recipe, tag or ingredient owned by
a different user fails as not-found (the owner-scoped queryset hides the
row from `get_object_or_404`), never as permission-denied, and leaves
the store untouched.  The tag/ingredient endpoints expose no retrieve
action, so update and delete are their only detail operations. -/
theorem C8_cross_owner_not_found (db : DB) (u : Nat) (r : Recipe) (t i : AttrRow)
    (raw : RawUpdatePayload) (nm nm2 : String)
    (hRn : (db.recipes.map Recipe.id).Nodup)
    (hTn : (db.tags.rows.map AttrRow.id).Nodup)
    (hIn : (db.ingredients.rows.map AttrRow.id).Nodup)
    (hr : r ∈ db.recipes) (hru : ¬ r.user = u)
    (ht : t ∈ db.tags.rows) (htu : ¬ t.user = u)
    (hi : i ∈ db.ingredients.rows) (hiu : ¬ i.user = u) :
    recipe_retrieve db u r.id = ApiResponse.notFound ∧
    recipe_patch db u r.id raw = (ApiResponse.notFound, db) ∧
    recipe_destroy db u r.id = (ApiResponse.notFound, db) ∧
    tag_update db u t.id nm = (ApiResponse.notFound, db) ∧
    tag_destroy db u t.id = (ApiResponse.notFound, db) ∧
    ingredient_update db u i.id nm2 = (ApiResponse.notFound, db) ∧
    ingredient_destroy db u i.id = (ApiResponse.notFound, db) := by
  have hro := recipe_get_object_other_owner db u r hRn hr hru
  have hto := attr_get_object_other_owner db.tags u t hTn ht htu
  have hio := attr_get_object_other_owner db.ingredients u i hIn hi hiu
  refine ⟨?_, ?_, ?_, ?_, ?_, ?_, ?_⟩ <;>
    simp [recipe_retrieve, recipe_patch, recipe_destroy, tag_update, tag_destroy,
      ingredient_update, ingredient_destroy, hro, hto, hio]

/-- `dbC7` with a tag and an ingredient owned by user 2. -/
def dbC8 : DB :=
  ⟨⟨[⟨1, "A", 1⟩, ⟨2, "B", 1⟩, ⟨3, "C", 1⟩, ⟨4, "D", 2⟩], 5⟩,
    ⟨[⟨1, "Salt", 1⟩, ⟨2, "Pepper", 2⟩], 3⟩,
    [⟨1, "Curry", 10, 100, "", "", 1, [1, 2], [1]⟩,
     ⟨2, "Tahini", 20, 200, "", "", 1, [2], []⟩,
     ⟨3, "Dahl", 30, 300, "", "", 1, [3], [1]⟩,
     ⟨4, "Foreign", 5, 50, "", "", 2, [1], [1]⟩], 5⟩

/-- C8 witness: in `dbC7` extended so that user 2 also owns a tag and an
ingredient, user 1 cannot see user 2's recipe 4, tag 4 or ingredient 2
through any detail operation. -/
theorem C8_cross_owner_not_found_witness :
    recipe_retrieve dbC8 1 4 = ApiResponse.notFound ∧
    recipe_patch dbC8 1 4 ⟨some "x", none, none, none, none, none, none, some 1⟩
      = (ApiResponse.notFound, dbC8) ∧
    recipe_destroy dbC8 1 4 = (ApiResponse.notFound, dbC8) ∧
    tag_update dbC8 1 4 "y" = (ApiResponse.notFound, dbC8) ∧
    tag_destroy dbC8 1 4 = (ApiResponse.notFound, dbC8) ∧
    ingredient_update dbC8 1 2 "z" = (ApiResponse.notFound, dbC8) ∧
    ingredient_destroy dbC8 1 2 = (ApiResponse.notFound, dbC8) :=
  C8_cross_owner_not_found dbC8 1
    ⟨4, "Foreign", 5, 50, "", "", 2, [1], [1]⟩ ⟨4, "D", 2⟩ ⟨2, "Pepper", 2⟩
    ⟨some "x", none, none, none, none, none, none, some 1⟩ "y" "z"
    (by decide) (by decide) (by decide) (by decide) (by decide)
    (by decide) (by decide) (by decide) (by decide)


/-! ### Claim C6 -/

theorem filter_user_foreign (A B : List Recipe) (u : Nat) (hB : ∀ r ∈ B, ¬ r.user = u) :
    (A ++ B).filter (fun r => r.user == u) = A.filter (fun r => r.user == u) := by
  rw [List.filter_append]
  have hnil : B.filter (fun r => r.user == u) = [] := by
    rw [List.filter_eq_nil_iff]
    intro a ha
    simpa using hB a ha
  rw [hnil, List.append_nil]

theorem attr_filter_user_foreign (A B : List AttrRow) (u : Nat) (hB : ∀ t ∈ B, ¬ t.user = u) :
    (A ++ B).filter (fun t => t.user == u) = A.filter (fun t => t.user == u) := by
  rw [List.filter_append]
  have hnil : B.filter (fun t => t.user == u) = [] := by
    rw [List.filter_eq_nil_iff]
    intro a ha
    simpa using hB a ha
  rw [hnil, List.append_nil]

theorem qsFilterTagsIdIn_append (l e : List Recipe) (ids : List Int) :
    qsFilterTagsIdIn (l ++ e) ids = qsFilterTagsIdIn l ids ++ qsFilterTagsIdIn e ids := by
  simp [qsFilterTagsIdIn]

theorem qsFilterIngredientsIdIn_append (l e : List Recipe) (ids : List Int) :
    qsFilterIngredientsIdIn (l ++ e) ids
      = qsFilterIngredientsIdIn l ids ++ qsFilterIngredientsIdIn e ids := by
  simp [qsFilterIngredientsIdIn]

theorem qsFilterTagsIdIn_subset (e : List Recipe) (ids : List Int) (r : Recipe)
    (h : r ∈ qsFilterTagsIdIn e ids) : r ∈ e :=
  ((mem_qsFilterTagsIdIn e ids r).mp h).1

theorem qsFilterIngredientsIdIn_subset (e : List Recipe) (ids : List Int) (r : Recipe)
    (h : r ∈ qsFilterIngredientsIdIn e ids) : r ∈ e :=
  ((mem_qsFilterIngredientsIdIn e ids r).mp h).1

/-- Rows of another user do not influence the recipe queryset: the final
owner filter removes every result row they generate. -/
theorem recipe_get_queryset_foreign (db db2 : DB) (u : Nat) (e : List Recipe)
    (hrec : db2.recipes = db.recipes ++ e) (hex : ∀ r ∈ e, ¬ r.user = u)
    (tp ip : Option String) :
    recipe_get_queryset db2 u tp ip = recipe_get_queryset db u tp ip := by
  unfold recipe_get_queryset
  rw [hrec]
  have base : ∀ (Ql Qe : List Recipe), (∀ r ∈ Qe, r ∈ e) →
      List.dedup (sortDescById ((Ql ++ Qe).filter (fun r => r.user == u)))
        = List.dedup (sortDescById (Ql.filter (fun r => r.user == u))) := by
    intro Ql Qe hsub
    rw [filter_user_foreign Ql Qe u (fun r hr => hex r (hsub r hr))]
  rcases tp with _ | s1
  · rcases ip with _ | s2
    · simp only [Option.bind_eq_bind, Option.pure_def, Option.some_bind]
      rw [base db.recipes e (fun r hr => hr)]
    · by_cases hs2 : s2 = ""
      · simp only [hs2, if_pos rfl, ite_true, Option.bind_eq_bind, Option.pure_def, Option.some_bind]
        rw [base db.recipes e (fun r hr => hr)]
      · simp only [hs2, ite_false, Option.bind_eq_bind, Option.pure_def, Option.some_bind]
        cases hp2 : params_to_ints s2 with
        | none => rfl
        | some il =>
            simp only [Option.pure_def, Option.some_bind]
            rw [qsFilterIngredientsIdIn_append]
            rw [base _ _ (fun r hr => qsFilterIngredientsIdIn_subset e il r hr)]
  · by_cases hs1 : s1 = ""
    · simp only [hs1, if_pos rfl, ite_true, Option.bind_eq_bind, Option.pure_def, Option.some_bind]
      rcases ip with _ | s2
      · simp only [Option.pure_def, Option.some_bind]
        rw [base db.recipes e (fun r hr => hr)]
      · by_cases hs2 : s2 = ""
        · simp only [hs2, if_pos rfl, ite_true, Option.pure_def, Option.some_bind]
          rw [base db.recipes e (fun r hr => hr)]
        · simp only [hs2, ite_false]
          cases hp2 : params_to_ints s2 with
          | none => rfl
          | some il =>
              simp only [Option.pure_def, Option.some_bind]
              rw [qsFilterIngredientsIdIn_append]
              rw [base _ _ (fun r hr => qsFilterIngredientsIdIn_subset e il r hr)]
    · simp only [hs1, ite_false]
      cases hp1 : params_to_ints s1 with
      | none => rfl
      | some tl =>
          simp only [Option.bind_eq_bind, Option.pure_def, Option.some_bind]
          rw [qsFilterTagsIdIn_append]
          rcases ip with _ | s2
          · simp only [Option.pure_def, Option.some_bind]
            rw [base _ _ (fun r hr => qsFilterTagsIdIn_subset e tl r hr)]
          · by_cases hs2 : s2 = ""
            · simp only [hs2, if_pos rfl, ite_true, Option.pure_def, Option.some_bind]
              rw [base _ _ (fun r hr => qsFilterTagsIdIn_subset e tl r hr)]
            · simp only [hs2, ite_false]
              cases hp2 : params_to_ints s2 with
              | none => rfl
              | some il =>
                  simp only [Option.pure_def, Option.some_bind]
                  rw [qsFilterIngredientsIdIn_append]
                  rw [base _ _ (fun r hr =>
                    qsFilterTagsIdIn_subset e tl r
                      (qsFilterIngredientsIdIn_subset _ il r hr))]

/-- Whenever the recipe queryset is produced at all, it has the shape
owner-filter, then sort, then deduplicate, of some joined row list. -/
theorem recipe_get_queryset_shape (db : DB) (u : Nat) (tp ip : Option String)
    (qs : List Recipe) (h : recipe_get_queryset db u tp ip = some qs) :
    ∃ Q : List Recipe,
      qs = List.dedup (sortDescById (Q.filter (fun r => r.user == u))) := by
  unfold recipe_get_queryset at h
  rcases tp with _ | s1
  · rcases ip with _ | s2
    · exact ⟨db.recipes, by cases h; rfl⟩
    · by_cases hs2 : s2 = ""
      · simp only [hs2, if_pos rfl, ite_true, Option.bind_eq_bind, Option.pure_def,
          Option.some_bind] at h
        exact ⟨db.recipes, by cases h; rfl⟩
      · simp only [hs2, ite_false, Option.bind_eq_bind, Option.pure_def,
          Option.some_bind] at h
        cases hp2 : params_to_ints s2 with
        | none => rw [hp2] at h; cases h
        | some il =>
            rw [hp2] at h
            simp only [Option.pure_def, Option.some_bind] at h
            exact ⟨_, by cases h; rfl⟩
  · by_cases hs1 : s1 = ""
    · simp only [hs1, if_pos rfl, ite_true, Option.bind_eq_bind, Option.pure_def,
        Option.some_bind] at h
      rcases ip with _ | s2
      · exact ⟨db.recipes, by cases h; rfl⟩
      · by_cases hs2 : s2 = ""
        · simp only [hs2, if_pos rfl, ite_true, Option.pure_def, Option.some_bind] at h
          exact ⟨db.recipes, by cases h; rfl⟩
        · simp only [hs2, ite_false] at h
          cases hp2 : params_to_ints s2 with
          | none => rw [hp2] at h; cases h
          | some il =>
              rw [hp2] at h
              simp only [Option.pure_def, Option.some_bind] at h
              exact ⟨_, by cases h; rfl⟩
    · simp only [hs1, ite_false, Option.bind_eq_bind, Option.pure_def, Option.some_bind] at h
      cases hp1 : params_to_ints s1 with
      | none => rw [hp1] at h; cases h
      | some tl =>
          rw [hp1] at h
          simp only [Option.pure_def, Option.some_bind] at h
          rcases ip with _ | s2
          · exact ⟨_, by cases h; rfl⟩
          · by_cases hs2 : s2 = ""
            · simp only [hs2, if_pos rfl, ite_true, Option.pure_def, Option.some_bind] at h
              exact ⟨_, by cases h; rfl⟩
            · simp only [hs2, ite_false] at h
              cases hp2 : params_to_ints s2 with
              | none => rw [hp2] at h; cases h
              | some il =>
                  rw [hp2] at h
                  simp only [Option.pure_def, Option.some_bind] at h
                  exact ⟨_, by cases h; rfl⟩

/-- Every row in a recipe list response belongs to the requesting user. -/
theorem recipe_list_owner (db : DB) (u : Nat) (tp ip : Option String) (qs : List Recipe)
    (h : recipe_list db u tp ip = ApiResponse.ok qs) :
    ∀ r ∈ qs, r.user = u := by
  unfold recipe_list at h
  cases hq : recipe_get_queryset db u tp ip with
  | none => rw [hq] at h; cases h
  | some l =>
      rw [hq] at h
      cases h
      obtain ⟨Q, hQ⟩ := recipe_get_queryset_shape db u tp ip _ hq
      subst hQ
      intro r hr
      rw [List.mem_dedup, mem_sortDescById, List.mem_filter] at hr
      simpa using hr.2

/-- C6: owner scoping is a two-run noninterference property.  User B's
tag, ingredient and recipe listings contain nothing owned by A (for any
A other than B), and a recipe created by A — together with every tag and
ingredient row A's reconciliation creates — leaves all three of B's
listings unchanged. -/
theorem C6_owner_isolation (db : DB) (A B : Nat) (ps : List (String × String))
    (v : CreateData) (tp ip : Option String)
    (hAB : ¬ A = B) :
    (∀ t ∈ tag_list db B ps, ¬ t.user = A) ∧
    (∀ t ∈ ingredient_list db B ps, ¬ t.user = A) ∧
    (∀ qs, recipe_list db B tp ip = ApiResponse.ok qs → ∀ r ∈ qs, ¬ r.user = A) ∧
    tag_list (serializer_create db A v).1 B ps = tag_list db B ps ∧
    ingredient_list (serializer_create db A v).1 B ps = ingredient_list db B ps ∧
    recipe_list (serializer_create db A v).1 B tp ip = recipe_list db B tp ip := by
  refine ⟨?_, ?_, ?_, ?_, ?_, ?_⟩
  · intro t ht
    rw [tag_list, attr_get_queryset, mem_sortDescByName, List.mem_filter] at ht
    have : t.user = B := by simpa using ht.2
    rw [this]
    exact fun hc => hAB hc.symm
  · intro t ht
    rw [ingredient_list, attr_get_queryset, mem_sortDescByName, List.mem_filter] at ht
    have : t.user = B := by simpa using ht.2
    rw [this]
    exact fun hc => hAB hc.symm
  · intro qs hqs r hr
    have := recipe_list_owner db B tp ip qs hqs r hr
    rw [this]
    exact fun hc => hAB hc.symm
  · obtain ⟨ext, hext, hu⟩ :=
      get_or_create_attrs_rows A (v.tags.getD []) db.tags []
    rw [tag_list, tag_list, attr_get_queryset, attr_get_queryset]
    show sortDescByName (((get_or_create_attrs db.tags A (v.tags.getD []) []).1.rows).filter
        (fun t => t.user == B)) = _
    rw [hext, attr_filter_user_foreign _ ext B
      (fun t htm => by rw [hu t htm]; exact hAB)]
  · obtain ⟨ext, hext, hu⟩ :=
      get_or_create_attrs_rows A (v.ingredients.getD []) db.ingredients []
    rw [ingredient_list, ingredient_list, attr_get_queryset, attr_get_queryset]
    show sortDescByName
        (((get_or_create_attrs db.ingredients A (v.ingredients.getD []) []).1.rows).filter
          (fun t => t.user == B)) = _
    rw [hext, attr_filter_user_foreign _ ext B
      (fun t htm => by rw [hu t htm]; exact hAB)]
  · unfold recipe_list
    rw [recipe_get_queryset_foreign db (serializer_create db A v).1 B
      [⟨db.nextRecipeId, v.title, v.time_minutes, v.price, v.link, v.description, A,
        (get_or_create_attrs db.tags A (v.tags.getD []) []).2,
        (get_or_create_attrs db.ingredients A (v.ingredients.getD []) []).2⟩]
      rfl
      (by
        intro r hr
        rcases List.mem_singleton.mp hr with rfl
        exact hAB)
      tp ip]

/-- Create payload used in the C6 witness: user 2 creates a recipe with
a fresh tag and a fresh ingredient. -/
def vC6 : CreateData :=
  ⟨"Zoodle", 5, 100, "", "", some [⟨"Zucchini"⟩], some [⟨"Zucchini"⟩]⟩

/-- C6 witness: in `dbC8`, user 1's listings never show user 2's rows,
and user 2 creating a recipe (with reconciled tag and ingredient rows)
leaves user 1's three listings unchanged. -/
theorem C6_owner_isolation_witness :
    (¬ (⟨3, "C", 1⟩ : AttrRow).user = 2) ∧
    tag_list (serializer_create dbC8 2 vC6).1 1 [] = tag_list dbC8 1 [] ∧
    ingredient_list (serializer_create dbC8 2 vC6).1 1 [] = ingredient_list dbC8 1 [] ∧
    recipe_list (serializer_create dbC8 2 vC6).1 1 none none = recipe_list dbC8 1 none none :=
  have h := C6_owner_isolation dbC8 2 1 [] vC6 none none (by decide)
  ⟨h.1 ⟨3, "C", 1⟩ (by decide), h.2.2.2.1, h.2.2.2.2.1, h.2.2.2.2.2⟩

/-! ### Claims C3 and C4 -/

theorem find?_map_update (l : List Recipe) (inst inst2 : Recipe) (h2 : inst2.id = inst.id)
    (hnodup : (l.map Recipe.id).Nodup) (hmem : inst ∈ l) :
    (l.map (fun r => if r.id == inst.id then inst2 else r)).find? (fun r => r.id == inst.id)
      = some inst2 := by
  induction l with
  | nil => cases hmem
  | cons x xs ih =>
      rw [List.map_cons] at hnodup ⊢
      obtain ⟨hx, hxs⟩ := List.nodup_cons.mp hnodup
      rcases List.mem_cons.mp hmem with rfl | hmem2
      · have hcond : (inst.id == inst.id) = true := by simp
        rw [hcond]
        simp only [ite_true]
        rw [List.find?_cons_of_pos]
        simpa using h2
      · have hne : ¬ x.id = inst.id := by
          intro hc
          apply hx
          rw [hc]
          exact List.mem_map_of_mem Recipe.id hmem2
        have hcond : (x.id == inst.id) = false := by simpa using hne
        rw [hcond]
        simp only [Bool.false_eq_true, ite_false]
        rw [List.find?_cons_of_neg]
        · exact ih hxs hmem2
        · simpa using hne

/-- The row written back by `RecipeSerializer.update`: scalars present in
the validated data overwrite the instance's attributes, each present
tag/ingredient key replaces the whole association set by the
reconciled one, the owner is untouched. -/
theorem serializer_update_row (db : DB) (u : Nat) (inst : Recipe) (v : UpdateData)
    (hnodup : (db.recipes.map Recipe.id).Nodup) (hmem : inst ∈ db.recipes) :
    getRecipe (serializer_update db u inst v) inst.id = some
      { inst with
        title := v.title.getD inst.title
        time_minutes := v.time_minutes.getD inst.time_minutes
        price := v.price.getD inst.price
        link := v.link.getD inst.link
        description := v.description.getD inst.description
        tags :=
          match v.tags with
          | some ts => (get_or_create_attrs db.tags u ts []).2
          | none => inst.tags
        ingredients :=
          match v.ingredients with
          | some igs => (get_or_create_attrs db.ingredients u igs []).2
          | none => inst.ingredients } := by
  unfold getRecipe serializer_update
  rcases v with ⟨vt, vtm, vp, vl, vd, vtags, vings⟩
  cases vtags <;> cases vings <;>
    exact find?_map_update db.recipes inst _ rfl hnodup hmem

/-- C3: on update, a present `tags`/`ingredients` key — even `[]` —
replaces the recipe's entire association set for that relation by the
descriptors reconciled into an empty set (so `tags: []` leaves zero
associations whatever was there before, and the replacement is
computed independently of the prior associations); an absent key leaves
the existing associations unchanged. -/
theorem C3_update_replace_or_preserve (db : DB) (u : Nat) (inst r2 : Recipe) (v : UpdateData)
    (hnodup : (db.recipes.map Recipe.id).Nodup) (hmem : inst ∈ db.recipes)
    (hr2 : getRecipe (serializer_update db u inst v) inst.id = some r2) :
    (v.tags = none → r2.tags = inst.tags) ∧
    (∀ ts, v.tags = some ts → r2.tags = (get_or_create_attrs db.tags u ts []).2) ∧
    (v.tags = some [] → r2.tags = []) ∧
    (v.ingredients = none → r2.ingredients = inst.ingredients) ∧
    (∀ igs, v.ingredients = some igs →
      r2.ingredients = (get_or_create_attrs db.ingredients u igs []).2) ∧
    (v.ingredients = some [] → r2.ingredients = []) := by
  rw [serializer_update_row db u inst v hnodup hmem] at hr2
  injection hr2 with h
  subst h
  refine ⟨?_, ?_, ?_, ?_, ?_, ?_⟩
  · intro h; simp [h]
  · intro ts h; simp [h]
  · intro h; simp [h, get_or_create_attrs]
  · intro h; simp [h]
  · intro igs h; simp [h]
  · intro h; simp [h, get_or_create_attrs]

/-- C3 witness: updating recipe 1 of `dbC8` with `tags: []` and
`ingredients: [{name: Garlic}]` clears all tag associations and
replaces the ingredient associations by the reconciled fresh row, while
an all-absent payload leaves both association sets unchanged. -/
theorem C3_update_replace_or_preserve_witness :
    (⟨1, "Curry", 10, 100, "", "", 1, [], [3]⟩ : Recipe).tags = [] ∧
    (⟨1, "Curry", 10, 100, "", "", 1, [], [3]⟩ : Recipe).ingredients
      = (get_or_create_attrs dbC8.ingredients 1 [⟨"Garlic"⟩] []).2 ∧
    (⟨1, "Curry", 10, 100, "", "", 1, [1, 2], [1]⟩ : Recipe).tags
      = (⟨1, "Curry", 10, 100, "", "", 1, [1, 2], [1]⟩ : Recipe).tags :=
  have h1 := C3_update_replace_or_preserve dbC8 1
    ⟨1, "Curry", 10, 100, "", "", 1, [1, 2], [1]⟩
    ⟨1, "Curry", 10, 100, "", "", 1, [], [3]⟩
    ⟨none, none, none, none, none, some [], some [⟨"Garlic"⟩]⟩
    (by decide) (by decide) (by decide)
  have h2 := C3_update_replace_or_preserve dbC8 1
    ⟨1, "Curry", 10, 100, "", "", 1, [1, 2], [1]⟩
    ⟨1, "Curry", 10, 100, "", "", 1, [1, 2], [1]⟩
    ⟨none, none, none, none, none, none, none⟩
    (by decide) (by decide) (by decide)
  ⟨h1.2.2.1 rfl, h1.2.2.2.2.1 [⟨"Garlic"⟩] rfl, h2.1 rfl⟩

/-- C4: an update payload carrying a `user` key succeeds, the recipe's
owner is unchanged (the undeclared field is dropped by deserialization,
so the attempt is silently ignored), and every submitted writable field
takes effect as usual. -/
theorem C4_owner_update_ignored (db : DB) (u pk w : Nat) (raw : RawUpdatePayload)
    (inst r2 : Recipe)
    (hnodup : (db.recipes.map Recipe.id).Nodup)
    (hobj : recipe_get_object db u pk = some inst)
    (hw : raw.user = some w)
    (hr2 : getRecipe (recipe_patch db u pk raw).2 pk = some r2) :
    (recipe_patch db u pk raw).1 = ApiResponse.ok () ∧
    r2.user = inst.user ∧
    r2.title = raw.title.getD inst.title ∧
    r2.time_minutes = raw.time_minutes.getD inst.time_minutes ∧
    r2.price = raw.price.getD inst.price ∧
    r2.link = raw.link.getD inst.link ∧
    r2.description = raw.description.getD inst.description ∧
    (raw.tags = none → r2.tags = inst.tags) ∧
    (∀ ts, raw.tags = some ts → r2.tags = (get_or_create_attrs db.tags u ts []).2) ∧
    (raw.ingredients = none → r2.ingredients = inst.ingredients) ∧
    (∀ igs, raw.ingredients = some igs →
      r2.ingredients = (get_or_create_attrs db.ingredients u igs []).2) := by
  obtain ⟨hm, hu, hid⟩ := recipe_get_object_spec db u pk inst hobj
  unfold recipe_patch at hr2 ⊢
  rw [hobj] at hr2 ⊢
  rw [← hid] at hr2
  rw [serializer_update_row db u inst (to_internal_value raw) hnodup hm] at hr2
  injection hr2 with h
  subst h
  refine ⟨rfl, rfl, rfl, rfl, rfl, rfl, rfl, ?_, ?_, ?_, ?_⟩
  · intro h; simp [to_internal_value, h]
  · intro ts h; simp [to_internal_value, h]
  · intro h; simp [to_internal_value, h]
  · intro igs h; simp [to_internal_value, h]

/-- C4 witness: in `dbC8`, user 1 patches recipe 1 with a new title and
`user: 2`; the request succeeds, the title changes and the owner stays
user 1. -/
theorem C4_owner_update_ignored_witness :
    (recipe_patch dbC8 1 1 ⟨some "Hot Curry", none, none, none, none, none, none, some 2⟩).1
      = ApiResponse.ok () ∧
    (⟨1, "Hot Curry", 10, 100, "", "", 1, [1, 2], [1]⟩ : Recipe).user
      = (⟨1, "Curry", 10, 100, "", "", 1, [1, 2], [1]⟩ : Recipe).user ∧
    (⟨1, "Hot Curry", 10, 100, "", "", 1, [1, 2], [1]⟩ : Recipe).title
      = (some "Hot Curry").getD (⟨1, "Curry", 10, 100, "", "", 1, [1, 2], [1]⟩ : Recipe).title :=
  have h := C4_owner_update_ignored dbC8 1 1 2
    ⟨some "Hot Curry", none, none, none, none, none, none, some 2⟩
    ⟨1, "Curry", 10, 100, "", "", 1, [1, 2], [1]⟩
    ⟨1, "Hot Curry", 10, 100, "", "", 1, [1, 2], [1]⟩
    (by decide) (by decide) (by decide) (by decide)
  ⟨h.1, h.2.1, h.2.2.1⟩

/-! ### Claim C5 -/

/-- C5: creating two recipes, each with descriptor list
`[{name: "Vegan"}]`, against a store with no `(u, "Vegan")` tag row yet:
the first reconciliation inserts one row (primary key `db.tags.nextId`),
the second finds that row instead of inserting, so exactly one
`(u, "Vegan")` row exists afterwards and both recipes' association
lists point at it. -/
theorem C5_reconciliation_idempotent (db : DB) (u : Nat) (v1 v2 : CreateData) (r1 r2 : Recipe)
    (hv1 : v1.tags = some [⟨"Vegan"⟩]) (hv2 : v2.tags = some [⟨"Vegan"⟩])
    (hfresh : db.tags.rows.filter (fun t => t.user == u && t.name == "Vegan") = [])
    (hwfR : ∀ r ∈ db.recipes, r.id < db.nextRecipeId)
    (hr1 : getRecipe (serializer_create (serializer_create db u v1).1 u v2).1
        (serializer_create db u v1).2 = some r1)
    (hr2 : getRecipe (serializer_create (serializer_create db u v1).1 u v2).1
        (serializer_create (serializer_create db u v1).1 u v2).2 = some r2) :
    ((serializer_create (serializer_create db u v1).1 u v2).1.tags.rows.filter
        (fun t => t.user == u && t.name == "Vegan")).length = 1 ∧
    r1.tags = [db.tags.nextId] ∧
    r2.tags = [db.tags.nextId] ∧
    (⟨db.tags.nextId, "Vegan", u⟩ : AttrRow)
      ∈ (serializer_create (serializer_create db u v1).1 u v2).1.tags.rows := by
  have hfind1 : db.tags.rows.find? (fun t => t.user == u && t.name == "Vegan") = none := by
    rw [List.find?_eq_none]
    intro x hx
    exact fun hc => List.filter_eq_nil_iff.mp hfresh x hx hc
  have hattrs1 : get_or_create_attrs db.tags u [⟨"Vegan"⟩] []
      = (⟨db.tags.rows ++ [⟨db.tags.nextId, "Vegan", u⟩], db.tags.nextId + 1⟩,
          [db.tags.nextId]) := by
    simp [get_or_create_attrs, get_or_create, hfind1, m2m_add]
  have hc1 : serializer_create db u v1
      = (⟨⟨db.tags.rows ++ [⟨db.tags.nextId, "Vegan", u⟩], db.tags.nextId + 1⟩,
            (get_or_create_attrs db.ingredients u (v1.ingredients.getD []) []).1,
            db.recipes ++ [⟨db.nextRecipeId, v1.title, v1.time_minutes, v1.price, v1.link,
              v1.description, u, [db.tags.nextId],
              (get_or_create_attrs db.ingredients u (v1.ingredients.getD []) []).2⟩],
            db.nextRecipeId + 1⟩, db.nextRecipeId) := by
    unfold serializer_create
    rw [hv1]
    simp [hattrs1]
  have hfind2 : (db.tags.rows ++ ([⟨db.tags.nextId, "Vegan", u⟩] : List AttrRow)).find?
      (fun t => t.user == u && t.name == "Vegan") = some ⟨db.tags.nextId, "Vegan", u⟩ := by
    rw [List.find?_append, hfind1]
    simp
  have hattrs2 : get_or_create_attrs
      ⟨db.tags.rows ++ [⟨db.tags.nextId, "Vegan", u⟩], db.tags.nextId + 1⟩ u [⟨"Vegan"⟩] []
      = (⟨db.tags.rows ++ [⟨db.tags.nextId, "Vegan", u⟩], db.tags.nextId + 1⟩,
          [db.tags.nextId]) := by
    simp [get_or_create_attrs, get_or_create, hfind2, m2m_add]
  have hc2 : serializer_create (serializer_create db u v1).1 u v2
      = (⟨⟨db.tags.rows ++ [⟨db.tags.nextId, "Vegan", u⟩], db.tags.nextId + 1⟩,
            (get_or_create_attrs (serializer_create db u v1).1.ingredients u
              (v2.ingredients.getD []) []).1,
            (db.recipes ++ [⟨db.nextRecipeId, v1.title, v1.time_minutes, v1.price, v1.link,
              v1.description, u, [db.tags.nextId],
              (get_or_create_attrs db.ingredients u (v1.ingredients.getD []) []).2⟩])
              ++ [⟨db.nextRecipeId + 1, v2.title, v2.time_minutes, v2.price, v2.link,
                v2.description, u, [db.tags.nextId],
                (get_or_create_attrs (serializer_create db u v1).1.ingredients u
                  (v2.ingredients.getD []) []).2⟩],
            db.nextRecipeId + 2⟩, db.nextRecipeId + 1) := by
    conv_lhs => rw [serializer_create]
    rw [hv2]
    rw [show (serializer_create db u v1).1.tags
        = ⟨db.tags.rows ++ [⟨db.tags.nextId, "Vegan", u⟩], db.tags.nextId + 1⟩ by rw [hc1]]
    rw [show (serializer_create db u v1).1.recipes
        = db.recipes ++ [⟨db.nextRecipeId, v1.title, v1.time_minutes, v1.price, v1.link,
            v1.description, u, [db.tags.nextId],
            (get_or_create_attrs db.ingredients u (v1.ingredients.getD []) []).2⟩] by
      rw [hc1]]
    rw [show (serializer_create db u v1).1.nextRecipeId = db.nextRecipeId + 1 by rw [hc1]]
    simp [hattrs2]
  have hfr1 : db.recipes.find? (fun r => r.id == db.nextRecipeId) = none := by
    rw [List.find?_eq_none]
    intro x hx
    have := hwfR x hx
    simp only [beq_iff_eq]
    omega
  have hfr2 : db.recipes.find? (fun r => r.id == db.nextRecipeId + 1) = none := by
    rw [List.find?_eq_none]
    intro x hx
    have := hwfR x hx
    simp only [beq_iff_eq]
    omega
  rw [hc2] at hr1 hr2 ⊢
  rw [hc1] at hr1
  unfold getRecipe at hr1 hr2
  simp only [List.find?_append, hfr1, hfr2, Option.none_or] at hr1 hr2
  simp only [List.find?_cons, List.find?_nil] at hr1 hr2
  refine ⟨?_, ?_, ?_, ?_⟩
  · rw [List.filter_append, hfresh]
    simp
  · simp at hr1
    subst hr1
    simp
  · have hne : (db.nextRecipeId == db.nextRecipeId + 1) = false :=
      beq_eq_false_iff_ne.mpr (by omega)
    rw [hne] at hr2
    simp at hr2
    subst hr2
    simp
  · simp

/-- First create payload of the C5 witness. -/
def vC5a : CreateData := ⟨"Pancakes", 5, 100, "", "", some [⟨"Vegan"⟩], none⟩

/-- Second create payload of the C5 witness. -/
def vC5b : CreateData := ⟨"Waffles", 7, 200, "", "", some [⟨"Vegan"⟩], none⟩

/-- C5 witness: two creations with the Vegan descriptor on the empty
store leave exactly one Vegan tag row, associated with both recipes. -/
theorem C5_reconciliation_idempotent_witness :
    ((serializer_create (serializer_create db0 1 vC5a).1 1 vC5b).1.tags.rows.filter
        (fun t => t.user == 1 && t.name == "Vegan")).length = 1 ∧
    (⟨0, "Pancakes", 5, 100, "", "", 1, [0], []⟩ : Recipe).tags = [db0.tags.nextId] ∧
    (⟨1, "Waffles", 7, 200, "", "", 1, [0], []⟩ : Recipe).tags = [db0.tags.nextId] ∧
    (⟨db0.tags.nextId, "Vegan", 1⟩ : AttrRow)
      ∈ (serializer_create (serializer_create db0 1 vC5a).1 1 vC5b).1.tags.rows :=
  C5_reconciliation_idempotent db0 1 vC5a vC5b
    ⟨0, "Pancakes", 5, 100, "", "", 1, [0], []⟩
    ⟨1, "Waffles", 7, 200, "", "", 1, [0], []⟩
    (by decide) (by decide) (by decide) (by decide) (by decide) (by decide)

/-! ### Claim C10 -/

/-- The list of actions a DRF mixin contributes to a viewset routed by
the default router. -/
def mixin_actions (m : String) : List String :=
  if m = "ListModelMixin" then ["list"]
  else if m = "CreateModelMixin" then ["create"]
  else if m = "RetrieveModelMixin" then ["retrieve"]
  else if m = "UpdateModelMixin" then ["update", "partial_update"]
  else if m = "DestroyModelMixin" then ["destroy"]
  else []

/-- The mixins `BaseRecipeAttrViewSet` is built from (`views.py`): list,
update and destroy only — `GenericViewSet` itself contributes no action. -/
def BaseRecipeAttrViewSet_mixins : List String :=
  ["ListModelMixin", "UpdateModelMixin", "DestroyModelMixin", "GenericViewSet"]

/-- The actions exposed by the tag and ingredient endpoints. -/
def attr_viewset_actions : List String :=
  BaseRecipeAttrViewSet_mixins.flatMap mixin_actions

/-- The whole public surface of the recipe app (`urls.py` routes the
three viewsets; the image upload action writes no tag/ingredient row and
is omitted together with the other image handling). -/
inductive ApiOp where
  | recipeListOp (tags ingredients : Option String)
  | recipeCreateOp (v : CreateData)
  | recipeRetrieveOp (pk : Nat)
  | recipePatchOp (pk : Nat) (raw : RawUpdatePayload)
  | recipeDestroyOp (pk : Nat)
  | tagListOp (ps : List (String × String))
  | tagUpdateOp (pk : Nat) (nm : String)
  | tagDestroyOp (pk : Nat)
  | ingredientListOp (ps : List (String × String))
  | ingredientUpdateOp (pk : Nat) (nm : String)
  | ingredientDestroyOp (pk : Nat)

/-- State effect of one authenticated request (read-only actions leave
the store unchanged). -/
def applyOp (db : DB) (u : Nat) : ApiOp → DB
  | .recipeListOp _ _ => db
  | .recipeCreateOp v => (recipe_create db u v).2
  | .recipeRetrieveOp _ => db
  | .recipePatchOp pk raw => (recipe_patch db u pk raw).2
  | .recipeDestroyOp pk => (recipe_destroy db u pk).2
  | .tagListOp _ => db
  | .tagUpdateOp pk nm => (tag_update db u pk nm).2
  | .tagDestroyOp pk => (tag_destroy db u pk).2
  | .ingredientListOp _ => db
  | .ingredientUpdateOp pk nm => (ingredient_update db u pk nm).2
  | .ingredientDestroyOp pk => (ingredient_destroy db u pk).2

/-- C10: the tag/ingredient endpoints expose exactly list, update
(including partial update) and destroy — no create and no retrieve — and
across the whole public surface every tag or ingredient row that an
operation adds to the store carries the requesting user as owner: rows
are only ever created by reconciliation inside a recipe write. -/
theorem C10_attr_creation_only_via_reconciliation (db : DB) (u : Nat) (op : ApiOp)
    (t : AttrRow) :
    attr_viewset_actions = ["list", "update", "partial_update", "destroy"] ∧
    ¬ "create" ∈ attr_viewset_actions ∧
    ¬ "retrieve" ∈ attr_viewset_actions ∧
    (t ∈ (applyOp db u op).tags.rows → t ∈ db.tags.rows ∨ t.user = u) ∧
    (t ∈ (applyOp db u op).ingredients.rows → t ∈ db.ingredients.rows ∨ t.user = u) := by
  refine ⟨by decide, by decide, by decide, ?_, ?_⟩
  · intro ht
    cases op with
    | recipeListOp tp ip => exact Or.inl ht
    | recipeRetrieveOp pk => exact Or.inl ht
    | tagListOp ps => exact Or.inl ht
    | ingredientListOp ps => exact Or.inl ht
    | recipeCreateOp v =>
        obtain ⟨ext, hext, hu⟩ := get_or_create_attrs_rows u (v.tags.getD []) db.tags []
        simp only [applyOp, recipe_create, serializer_create] at ht
        rw [hext] at ht
        rcases List.mem_append.mp ht with h | h
        · exact Or.inl h
        · exact Or.inr (hu t h)
    | recipePatchOp pk raw =>
        simp only [applyOp, recipe_patch] at ht
        cases hobj : recipe_get_object db u pk with
        | none => rw [hobj] at ht; exact Or.inl ht
        | some inst =>
            rw [hobj] at ht
            simp only [serializer_update] at ht
            cases hvt : (to_internal_value raw).tags with
            | none => rw [hvt] at ht; exact Or.inl ht
            | some ts =>
                rw [hvt] at ht
                obtain ⟨ext, hext, hu⟩ := get_or_create_attrs_rows u ts db.tags []
                rw [hext] at ht
                rcases List.mem_append.mp ht with h | h
                · exact Or.inl h
                · exact Or.inr (hu t h)
    | recipeDestroyOp pk =>
        simp only [applyOp, recipe_destroy] at ht
        cases hobj : recipe_get_object db u pk with
        | none => rw [hobj] at ht; exact Or.inl ht
        | some inst => rw [hobj] at ht; exact Or.inl ht
    | tagUpdateOp pk nm =>
        simp only [applyOp, tag_update] at ht
        cases hobj : attr_get_object db.tags u pk with
        | none => rw [hobj] at ht; exact Or.inl ht
        | some t0 =>
            rw [hobj] at ht
            obtain ⟨hmem0, hu0, hid0⟩ := attr_get_object_spec db.tags u pk t0 hobj
            simp only at ht
            rcases List.mem_map.mp ht with ⟨x, hx, hxe⟩
            by_cases hc : (x.id == pk) = true
            · rw [hc] at hxe
              simp at hxe
              right
              rw [← hxe]
              exact hu0
            · rw [Bool.not_eq_true] at hc
              rw [hc] at hxe
              simp at hxe
              left
              rw [← hxe]
              exact hx
    | tagDestroyOp pk =>
        simp only [applyOp, tag_destroy] at ht
        cases hobj : attr_get_object db.tags u pk with
        | none => rw [hobj] at ht; exact Or.inl ht
        | some t0 =>
            rw [hobj] at ht
            simp only at ht
            exact Or.inl (List.mem_of_mem_filter ht)
    | ingredientUpdateOp pk nm =>
        simp only [applyOp, ingredient_update] at ht
        cases hobj : attr_get_object db.ingredients u pk with
        | none => rw [hobj] at ht; exact Or.inl ht
        | some t0 => rw [hobj] at ht; exact Or.inl ht
    | ingredientDestroyOp pk =>
        simp only [applyOp, ingredient_destroy] at ht
        cases hobj : attr_get_object db.ingredients u pk with
        | none => rw [hobj] at ht; exact Or.inl ht
        | some t0 => rw [hobj] at ht; exact Or.inl ht
  · intro ht
    cases op with
    | recipeListOp tp ip => exact Or.inl ht
    | recipeRetrieveOp pk => exact Or.inl ht
    | tagListOp ps => exact Or.inl ht
    | ingredientListOp ps => exact Or.inl ht
    | recipeCreateOp v =>
        obtain ⟨ext, hext, hu⟩ :=
          get_or_create_attrs_rows u (v.ingredients.getD []) db.ingredients []
        simp only [applyOp, recipe_create, serializer_create] at ht
        rw [hext] at ht
        rcases List.mem_append.mp ht with h | h
        · exact Or.inl h
        · exact Or.inr (hu t h)
    | recipePatchOp pk raw =>
        simp only [applyOp, recipe_patch] at ht
        cases hobj : recipe_get_object db u pk with
        | none => rw [hobj] at ht; exact Or.inl ht
        | some inst =>
            rw [hobj] at ht
            simp only [serializer_update] at ht
            cases hvi : (to_internal_value raw).ingredients with
            | none => rw [hvi] at ht; exact Or.inl ht
            | some igs =>
                rw [hvi] at ht
                obtain ⟨ext, hext, hu⟩ := get_or_create_attrs_rows u igs db.ingredients []
                rw [hext] at ht
                rcases List.mem_append.mp ht with h | h
                · exact Or.inl h
                · exact Or.inr (hu t h)
    | recipeDestroyOp pk =>
        simp only [applyOp, recipe_destroy] at ht
        cases hobj : recipe_get_object db u pk with
        | none => rw [hobj] at ht; exact Or.inl ht
        | some inst => rw [hobj] at ht; exact Or.inl ht
    | ingredientUpdateOp pk nm =>
        simp only [applyOp, ingredient_update] at ht
        cases hobj : attr_get_object db.ingredients u pk with
        | none => rw [hobj] at ht; exact Or.inl ht
        | some t0 =>
            rw [hobj] at ht
            obtain ⟨hmem0, hu0, hid0⟩ := attr_get_object_spec db.ingredients u pk t0 hobj
            simp only at ht
            rcases List.mem_map.mp ht with ⟨x, hx, hxe⟩
            by_cases hc : (x.id == pk) = true
            · rw [hc] at hxe
              simp at hxe
              right
              rw [← hxe]
              exact hu0
            · rw [Bool.not_eq_true] at hc
              rw [hc] at hxe
              simp at hxe
              left
              rw [← hxe]
              exact hx
    | ingredientDestroyOp pk =>
        simp only [applyOp, ingredient_destroy] at ht
        cases hobj : attr_get_object db.ingredients u pk with
        | none => rw [hobj] at ht; exact Or.inl ht
        | some t0 =>
            rw [hobj] at ht
            simp only at ht
            exact Or.inl (List.mem_of_mem_filter ht)
    | tagUpdateOp pk nm =>
        simp only [applyOp, tag_update] at ht
        cases hobj : attr_get_object db.tags u pk with
        | none => rw [hobj] at ht; exact Or.inl ht
        | some t0 => rw [hobj] at ht; exact Or.inl ht
    | tagDestroyOp pk =>
        simp only [applyOp, tag_destroy] at ht
        cases hobj : attr_get_object db.tags u pk with
        | none => rw [hobj] at ht; exact Or.inl ht
        | some t0 => rw [hobj] at ht; exact Or.inl ht

/-- C10 witness: the action list evaluated, and the invariant applied to
user 1 creating a recipe with a fresh tag on the empty store. -/
theorem C10_attr_creation_only_via_reconciliation_witness :
    attr_viewset_actions = ["list", "update", "partial_update", "destroy"] ∧
    ((⟨0, "Vegan", 1⟩ : AttrRow) ∈ db0.tags.rows ∨ (⟨0, "Vegan", 1⟩ : AttrRow).user = 1) :=
  have h := C10_attr_creation_only_via_reconciliation db0 1
    (ApiOp.recipeCreateOp vC5a) ⟨0, "Vegan", 1⟩
  ⟨h.1, h.2.2.2.1 (by decide)⟩
